import Mathlib

/-!
# Verification of the MDBQS polyglot query federator core

Shallow embedding of the core pipeline of the MDBQS backend
(`app/services/planner.py`, `app/services/execution.py`,
`app/services/fusion.py`, `app/core/llm/gemini_client.py`,
`app/models/state.py`) together with proofs settling the specification
claims about it.

Modelling conventions:
* JSON values are the inductive `Json` below; Python dicts are
  association lists in insertion order, matching CPython dict semantics
  (lookup by key, in-place update, append of new keys).
* External I/O (the `json.loads` parser, `mcp_manager.call_execute`,
  `uuid.uuid4`) is passed to the execution engine as explicit function
  parameters; a raised exception of a dispatch is `Except.error msg`.
* Fields of a parsed plan step that are present with a value of the
  wrong runtime type make the Python code raise an uncaught exception
  at various later points (pydantic validation, attribute errors).  No
  claim exercises such values; the embedding treats them as absent and
  notes the spot with a comment.
-/

namespace MDBQS

/-- JSON values as produced by `json.loads`.  Numbers are modelled as
integers: no claim involves non-integral numbers. -/
inductive Json where
  | null : Json
  | bool : Bool → Json
  | num : Int → Json
  | str : String → Json
  | arr : List Json → Json
  | obj : List (String × Json) → Json

/-- A JSON object body / Python dict: association list in insertion order. -/
abbrev JsonObj := List (String × Json)

/-- Python truthiness of a JSON value (`bool(x)`). -/
def truthy : Json → Bool
  | .null => false
  | .bool b => b
  | .num n => n != 0
  | .str s => s ≠ ""
  | .arr l => !l.isEmpty
  | .obj o => !o.isEmpty

/-- Python `a or b` on JSON values. -/
def pyOrJ (a b : Json) : Json := if truthy a then a else b

/-- Dict lookup `m.get(k)` (first entry wins; dicts built from JSON have
unique keys). -/
def alGet {α : Type} (m : List (String × α)) (k : String) : Option α :=
  match m with
  | [] => none
  | (k', v) :: t => if k' == k then some v else alGet t k

/-- Dict update `m[k] = v`: replace in place if the key exists, else
append, exactly as a CPython dict does. -/
def alSet {α : Type} (m : List (String × α)) (k : String) (v : α) :
    List (String × α) :=
  match m with
  | [] => [(k, v)]
  | (k', v') :: t => if k' == k then (k', v) :: t else (k', v') :: alSet t k v

/-- Dict deletion `m.pop(k)` (keys are unique in dicts, so removing
every occurrence coincides with removing the entry). -/
def alErase {α : Type} (m : List (String × α)) (k : String) :
    List (String × α) :=
  match m with
  | [] => []
  | (k', v) :: t => if k' == k then alErase t k else (k', v) :: alErase t k

/-- Lookup `m.get(k)` when the caller needs a string: a present non-string value
would make the Python code raise later (pydantic / attribute errors) and
is treated as absent. -/
def alGetStr (m : JsonObj) (k : String) : Option String :=
  match alGet m k with
  | some (.str s) => some s
  | _ => none

/-- Lookup `m.get(k, d)` for a string field. -/
def alGetStrD (m : JsonObj) (k d : String) : String :=
  (alGetStr m k).getD d

/-- Python `x or y` where `x` is an optional string (Python `None` and `""` are
both falsy). -/
def pyOrStr (a b : Option String) : Option String :=
  match a with
  | some s => if s = "" then b else some s
  | none => b

/-- Python `x or d` for a string with a string default. -/
def pyOrStrS (a : Option String) (d : String) : String :=
  match a with
  | some s => if s = "" then d else s
  | none => d

/-- Python `s.lower()` for the ASCII strings this code base compares
(`String.toLower` itself is not kernel-reducible). -/
def asciiLower (c : Char) : Char :=
  if 65 ≤ c.toNat ∧ c.toNat ≤ 90 then Char.ofNat (c.toNat + 32) else c

def strLower (s : String) : String :=
  ⟨s.data.map asciiLower⟩

/-- Python `ref.split(".")` (CPython semantics: `"" → [""]`, empty segments are
kept). -/
def splitDotAux : List Char → List Char → List String
  | [], cur => [⟨cur.reverse⟩]
  | c :: t, cur =>
    if c == '.' then ⟨cur.reverse⟩ :: splitDotAux t []
    else splitDotAux t (c :: cur)

def strSplitDot (s : String) : List String :=
  splitDotAux s.data []

/-- Python `needle in hay` for strings (substring containment), written over the
character lists to keep proofs elementary. -/
def strHasSub (hay needle : String) : Bool :=
  go hay.data
where
  go : List Char → Bool
    | [] => needle.data.isEmpty
    | c :: t => (needle.data.isPrefixOf (c :: t)) || go t

/-- Python `s.startswith(p)`. -/
def strStarts (s p : String) : Bool :=
  p.data.isPrefixOf s.data

/-- Python `k.endswith("_from")`. -/
def endsFrom (k : String) : Bool :=
  "_from".data.isSuffixOf k.data

/-- Python `k[:-5]` — strip the `_from` suffix. -/
def stripFrom (k : String) : String :=
  ⟨k.data.take (k.data.length - 5)⟩

end MDBQS

namespace MDBQS

/-! ## Data model (`app/models/state.py`) -/

/-- Model `PlanNode` of `app/models/state.py`.  `target_candidates` and `status`
are never read by the planner output path or the executor and are kept
for shape only. -/
structure PlanNode where
  id : String
  type : String
  subquery_nl : String
  capability : String
  target_candidates : List String := []
  preferred : Option String := none
  depends_on : Option String := none
  status : String := "PLANNED"

/-- The task meta dictionary built by `execute_plan`.  The pydantic
`SourceMeta` model of `state.py` has no `output_alias` field and silently
drops that key (pydantic ignores unknown fields), and `fuse` never reads
it; the field is kept here so that specification claims about it can be
stated.  `source_id` is the raw value (`None` possible before pydantic
validation); `last_updated` is kept as a raw JSON value. -/
structure SourceMeta where
  source_id : Option String := none
  source_type : String
  last_updated : Option Json := none
  output_alias : Option Json := none
  extra : Option JsonObj := some []

/-- Model `ExecutionTask` of `state.py`.  `source` is the raw `mcp_id` value
(`None` would be rejected by pydantic; no claim exercises that).
`result` rows are raw JSON values (pydantic restricts them to objects;
no claim exercises non-object rows). -/
structure ExecutionTask where
  task_id : String
  plan_node_id : String
  source : Option String := none
  native_query : String
  result : List Json := []
  meta : Option SourceMeta := none

/-! ## JSON serialisation

`json.dumps` / `str(...)` are used by the engine only to build the
`native_query` and `subquery_nl` strings, which no claim inspects; the
serialisers below use well-founded recursion and are never evaluated in
a proof.  String escaping and Python `repr` quoting details are not
reproduced. -/

mutual
/-- Serialiser `json.dumps` (escaping not modelled). -/
def Json.dumps : Json → String
  | .null => "null"
  | .bool b => cond b "true" "false"
  | .num n => toString n
  | .str s => "\"" ++ s ++ "\""
  | .arr l => "[" ++ dumpsList l ++ "]"
  | .obj o => "\x7b" ++ dumpsObj o ++ "\x7d"

def dumpsList : List Json → String
  | [] => ""
  | [x] => Json.dumps x
  | x :: y :: t => Json.dumps x ++ ", " ++ dumpsList (y :: t)

def dumpsObj : JsonObj → String
  | [] => ""
  | [(k, v)] => "\"" ++ k ++ "\": " ++ Json.dumps v
  | (k, v) :: p :: t => "\"" ++ k ++ "\": " ++ Json.dumps v ++ ", " ++ dumpsObj (p :: t)
end

/-- Python `str(...)` of a dict, used for `native_query` of failure
tasks; quoting details are immaterial to every claim and not modelled
exactly. -/
def pyStrObj (o : JsonObj) : String :=
  "\x7b" ++ dumpsObj o ++ "\x7d"

/-! ## Execution engine (`app/services/execution.py`) -/

/-- Function `_resolve_ref` walking the dotted path through the first row of the
referenced task.  A `None` (JSON null) at any level, a missing key, a
non-dict intermediate value, a missing or resultless task, or an empty
reference all yield `none` (the Python function returns `None` and logs). -/
def walkRef : Json → List String → Option Json
  | v, [] => some v
  | .obj o, k :: rest =>
      match alGet o k with
      | none => none
      | some .null => none
      | some v => walkRef v rest
  | _, _ :: _ => none

def resolveRef (results : List (String × ExecutionTask)) (ref : String) :
    Option Json :=
  if ref = "" then none
  else
    match strSplitDot ref with
    | [] => none
    | stepId :: rest =>
      match alGet results stepId with
      | none => none
      | some task =>
        match task.result with
        | [] => none
        | .null :: _ => none
        | v :: _ => walkRef v rest

/-- Function `_extract_rows`: normalise an MCP response into a list of rows.  A
present key bound to a non-list value would crash Python later
(pydantic); modelled as `[]`. -/
def asList : Json → List Json
  | .arr l => l
  | _ => []

def extractRows (res : Json) : List Json :=
  match res with
  | .arr l => l
  | .obj o =>
    match alGet o "rows" with
    | some v => asList v
    | none =>
      match alGet o "docs" with
      | some v => asList v
      | none =>
        match alGet o "matches" with
        | some v => asList v
        | none =>
          match alGet o "data" with
          | some v => asList v
          | none => []
  | _ => []

/-- Function `_extract_meta`: `res.get("meta", {}) or {}` on a dict response, else
`{}`.  A truthy non-dict `meta` would crash Python later; modelled as `{}`. -/
def extractMeta (res : Json) : JsonObj :=
  match res with
  | .obj o =>
    match alGet o "meta" with
    | some (.obj m) => m
    | _ => []
  | _ => []

/-- The step dict parsed from `node.subquery_nl`: empty string yields
`{}`, a `json.JSONDecodeError` (parser returns `none`) yields `{}`.  A
successful parse to a non-object makes Python crash on `step.get`; the
parser parameter therefore produces object bodies only. -/
def stepOf (parse : String → Option JsonObj) (node : PlanNode) : JsonObj :=
  if node.subquery_nl = "" then [] else (parse node.subquery_nl).getD []

/-- Extraction `step.get("id", node.id)`.  A present non-string id would crash at
pydantic validation; treated as the default. -/
def stepIdOf (parse : String → Option JsonObj) (node : PlanNode) : String :=
  alGetStrD (stepOf parse node) "id" node.id

/-- Extraction `step.get("mcp_id") or node.preferred`. -/
def mcpIdOf (parse : String → Option JsonObj) (node : PlanNode) :
    Option String :=
  pyOrStr (alGetStr (stepOf parse node) "mcp_id") node.preferred

/-- Extraction `step.get("tool", "")`. -/
def toolRawOf (parse : String → Option JsonObj) (node : PlanNode) : String :=
  alGetStrD (stepOf parse node) "tool" ""

/-- Extraction `(step.get("db_type") or "").lower()`. -/
def dbTypeOf (parse : String → Option JsonObj) (node : PlanNode) : String :=
  strLower (alGetStrD (stepOf parse node) "db_type" "")

/-- Extraction `step.get("input") or {}`.  A truthy non-dict input would crash at
`input_payload.copy()`; treated as `{}`. -/
def inputOf (parse : String → Option JsonObj) (node : PlanNode) : JsonObj :=
  match alGet (stepOf parse node) "input" with
  | some (.obj o) => o
  | _ => []

/-- Extraction `step.get("depends_on") or node.depends_on`. -/
def dependsOnOf (parse : String → Option JsonObj) (node : PlanNode) :
    Option String :=
  pyOrStr (alGetStr (stepOf parse node) "depends_on") node.depends_on

/-- Extraction `step.get("output_alias")`. -/
def aliasOf (parse : String → Option JsonObj) (node : PlanNode) :
    Option Json :=
  alGet (stepOf parse node) "output_alias"

/-- Extraction `step.get("optional", False)` under Python truthiness. -/
def optionalOf (parse : String → Option JsonObj) (node : PlanNode) : Bool :=
  truthy ((alGet (stepOf parse node) "optional").getD (.bool false))

/-- Tool inference of `execute_plan` when the step carries no tool:
dispatch on `node.capability` / `db_type`, defaulting to `execute_sql`. -/
def effectiveTool (parse : String → Option JsonObj) (node : PlanNode) :
    String :=
  let tool := toolRawOf parse node
  if tool ≠ "" then tool
  else
    let cap := strLower node.capability
    let db := dbTypeOf parse node
    if cap = "query.sql" ∨ db = "sql" then "execute_sql"
    else if cap = "query.document" ∨ db = "nosql" then "find"
    else if cap = "query.graph" ∨ db = "graph" then "traverse"
    else if cap = "query.vector" ∨ db = "vector" then "search"
    else "execute_sql"

/-- The reference-resolution loop of `execute_plan`: iterate over the
items of the original input; for each key ending in `_from`, resolve the
reference (a non-string reference value would crash `ref.split` and is
treated as an unresolvable reference), bind the stripped key on success,
and pop the `_from` key either way. -/
def resolveStep (results : List (String × ExecutionTask))
    (acc : JsonObj) (p : String × Json) : JsonObj :=
  if endsFrom p.1 then
    let acc' :=
      match p.2 with
      | .str r =>
        match resolveRef results r with
        | some v => alSet acc (stripFrom p.1) v
        | none => acc
      | _ => acc
    alErase acc' p.1
  else acc

def resolveInputs (results : List (String × ExecutionTask))
    (input : JsonObj) : JsonObj :=
  input.foldl (resolveStep results) input

/-- The payload handed to `mcp_manager.call_execute` for a step. -/
def dispatchedPayload (parse : String → Option JsonObj)
    (results : List (String × ExecutionTask)) (node : PlanNode) : JsonObj :=
  resolveInputs results (inputOf parse node)

/-- The failed task emitted when a required dependency is absent. -/
def depFailTask (parse : String → Option JsonObj) (uuid : Nat → String)
    (idx : Nat) (node : PlanNode) (d : String) : ExecutionTask :=
  { task_id := uuid idx
    plan_node_id := stepIdOf parse node
    source := mcpIdOf parse node
    native_query := pyStrObj (inputOf parse node)
    result := []
    meta := some
      { source_id := mcpIdOf parse node
        source_type := node.capability
        last_updated := none
        output_alias := aliasOf parse node
        extra := some [("error", .str ("Dependency " ++ d ++ " not found"))] } }

/-- Expression `input_payload.get("query") or f"{tool}({json.dumps(input_payload)})"`
on the resolved payload. -/
def nativeQueryOf (tool : String) (resolved : JsonObj) : String :=
  match alGetStr resolved "query" with
  | some s => if s = "" then tool ++ "(" ++ Json.dumps (.obj resolved) ++ ")" else s
  | none => tool ++ "(" ++ Json.dumps (.obj resolved) ++ ")"

/-- Resolution, tool inference, dispatch and response normalisation for
one step (`execute_plan` lines 158-258), producing the emitted task.  A
dispatch exception becomes an empty-rows task carrying the message in
`extra.error`. -/
def runStep (parse : String → Option JsonObj)
    (call : Option String → String → JsonObj → Except String Json)
    (uuid : Nat → String) (idx : Nat)
    (results : List (String × ExecutionTask)) (node : PlanNode) :
    ExecutionTask :=
  let resolved := dispatchedPayload parse results node
  let tool := effectiveTool parse node
  match call (mcpIdOf parse node) tool resolved with
  | .error e =>
    { task_id := uuid idx
      plan_node_id := stepIdOf parse node
      source := mcpIdOf parse node
      native_query := pyStrObj resolved
      result := []
      meta := some
        { source_id := mcpIdOf parse node
          source_type := node.capability
          last_updated := none
          output_alias := aliasOf parse node
          extra := some [("error", .str e)] } }
  | .ok res =>
    let rows := extractRows res
    let meta := extractMeta res
    { task_id := uuid idx
      plan_node_id := stepIdOf parse node
      source := mcpIdOf parse node
      native_query := nativeQueryOf tool resolved
      result := rows
      meta := some
        { source_id := pyOrStr (alGetStr meta "source_id") (mcpIdOf parse node)
          source_type := pyOrStrS (alGetStr meta "source_type") node.capability
          last_updated := alGet meta "last_updated"
          output_alias := aliasOf parse node
          extra := meta.filter (fun p =>
            !(p.1 == "source_id" || p.1 == "source_type" || p.1 == "last_updated")) } }

/-- Dependency check plus step execution for one plan node (`execute_plan`
loop body).  The dependency machinery is guarded by Python truthiness
(`if depends_on:`): an effective `depends_on` of `None` *or of the empty
string* is falsy, so the check is bypassed and the step dispatches
normally.  `none` means the step was skipped (optional step with a
truthy dependency that is absent or resultless); any emitted task is
also recorded in the results map by the driver below. -/
def processNode (parse : String → Option JsonObj)
    (call : Option String → String → JsonObj → Except String Json)
    (uuid : Nat → String) (idx : Nat)
    (results : List (String × ExecutionTask)) (node : PlanNode) :
    Option ExecutionTask :=
  match dependsOnOf parse node with
  | some d =>
    if d = "" then some (runStep parse call uuid idx results node)
    else
      match alGet results d with
      | none =>
        if optionalOf parse node then none
        else some (depFailTask parse uuid idx node d)
      | some depTask =>
        if depTask.result.isEmpty then
          if optionalOf parse node then none
          else some (runStep parse call uuid idx results node)
        else some (runStep parse call uuid idx results node)
  | none => some (runStep parse call uuid idx results node)

/-- The sequential driver of `execute_plan`: walk the nodes in order,
threading the results map keyed by step id. -/
def execGo (parse : String → Option JsonObj)
    (call : Option String → String → JsonObj → Except String Json)
    (uuid : Nat → String) :
    Nat → List (String × ExecutionTask) → List PlanNode →
    List ExecutionTask
  | _, _, [] => []
  | idx, results, node :: rest =>
    match processNode parse call uuid idx results node with
    | none => execGo parse call uuid (idx + 1) results rest
    | some t =>
      t :: execGo parse call uuid (idx + 1)
        (alSet results t.plan_node_id t) rest

/-- Function `execute_plan`. -/
def executePlan (parse : String → Option JsonObj)
    (call : Option String → String → JsonObj → Except String Json)
    (uuid : Nat → String) (nodes : List PlanNode) : List ExecutionTask :=
  execGo parse call uuid 0 [] nodes

/-- Instrumented trace of a run: each node paired with the results map
in force when it was processed and its outcome.  `executePlan` is the
`filterMap` of the outcomes (proved below); the trace only serves to
state claims about individual steps of a run. -/
def execTrace (parse : String → Option JsonObj)
    (call : Option String → String → JsonObj → Except String Json)
    (uuid : Nat → String) :
    Nat → List (String × ExecutionTask) → List PlanNode →
    List (PlanNode × List (String × ExecutionTask) × Option ExecutionTask)
  | _, _, [] => []
  | idx, results, node :: rest =>
    match processNode parse call uuid idx results node with
    | none => (node, results, none) :: execTrace parse call uuid (idx + 1) results rest
    | some t =>
      (node, results, some t) :: execTrace parse call uuid (idx + 1)
        (alSet results t.plan_node_id t) rest

end MDBQS

namespace MDBQS

/-! ## Fusion engine (`app/services/fusion.py`)

The conflict-resolution helpers (`choose_by_source_priority`,
`choose_by_recency`, `choose_by_voting`) and the local maps
`tasks_by_id` / `tasks_by_source` are dead code with respect to `fuse`'s
output and are not modelled. -/

/-- f-string rendering of `t.source` (Python formats `None` as "None";
pydantic guarantees a string, so the case never occurs in practice). -/
def srcFmt (t : ExecutionTask) : String :=
  match t.source with
  | some s => s
  | none => "None"

/-- Expression `(t.meta.extra or {})` for a task whose meta is present. -/
def metaExtraD (m : SourceMeta) : JsonObj :=
  m.extra.getD []

/-- Expression `getattr(t.meta, "extra", {}) if t.meta else {}` as a JSON value
(`extra` may legitimately be `None`). -/
def extraJson (t : ExecutionTask) : Json :=
  match t.meta with
  | some m =>
    match m.extra with
    | some e => .obj e
    | none => .null
  | none => .obj []

/-- Membership test for the SQL bucket (fusion.py line 105); note the
source substring test is case sensitive, unlike the other buckets. -/
def sqlPredB (t : ExecutionTask) : Bool :=
  (match t.meta with
   | some m =>
     strStarts (strLower m.source_type) "query.sql" ||
     (strLower (alGetStrD (metaExtraD m) "source_type" "") == "sql")
   | none => false)
  || (match t.source with
      | some s => s ≠ "" && strHasSub s "sql"
      | none => false)

/-- The fallback scan of fusion.py lines 107-111: tasks whose
`meta.extra.source_type` starts with "query.sql". -/
def extraSqlFallbackB (t : ExecutionTask) : Bool :=
  match t.meta with
  | some m =>
    match m.extra with
    | some e =>
      !e.isEmpty &&
      (match alGetStr e "source_type" with
       | some s => s ≠ "" && strStarts (strLower s) "query.sql"
       | none => false)
    | none => false
  | none => false

def sqlTasksOf (tasks : List ExecutionTask) : List ExecutionTask :=
  let s := tasks.filter sqlPredB
  if s.isEmpty then tasks.filter extraSqlFallbackB else s

/-- NoSQL / orders bucket (fusion.py line 134).  The final
`"orders" in t.source.lower()` disjunct is unguarded in Python (it would
raise on a `None` source); modelled as false for a missing source. -/
def nosqlPredB (t : ExecutionTask) : Bool :=
  (match t.meta with
   | some m =>
     strStarts (strLower m.source_type) "query.document" ||
     (strLower (alGetStrD (metaExtraD m) "source_type" "") == "nosql")
   | none => false)
  || (match t.source with
      | some s => (s ≠ "" && strHasSub (strLower s) "mongo") || strHasSub (strLower s) "orders"
      | none => false)

/-- Graph / referrals bucket (fusion.py line 142). -/
def graphPredB (t : ExecutionTask) : Bool :=
  (match t.meta with
   | some m =>
     strStarts (strLower m.source_type) "query.graph" ||
     (strLower (alGetStrD (metaExtraD m) "source_type" "") == "graph")
   | none => false)
  || (match t.source with
      | some s => (s ≠ "" && strHasSub (strLower s) "graph") || strHasSub (strLower s) "neo4j"
      | none => false)

/-- Vector / similar-customers bucket (fusion.py line 150). -/
def vectorPredB (t : ExecutionTask) : Bool :=
  (match t.meta with
   | some m =>
     strStarts (strLower m.source_type) "query.vector" ||
     (strLower (alGetStrD (metaExtraD m) "source_type" "") == "vector")
   | none => false)
  || (match t.source with
      | some s => (s ≠ "" && strHasSub (strLower s) "vector") || strHasSub (strLower s) "milvus"
      | none => false)

def nosqlTasksOf (tasks : List ExecutionTask) : List ExecutionTask :=
  tasks.filter nosqlPredB

def graphTasksOf (tasks : List ExecutionTask) : List ExecutionTask :=
  tasks.filter graphPredB

def vectorTasksOf (tasks : List ExecutionTask) : List ExecutionTask :=
  tasks.filter vectorPredB

/-- Concatenated rows of a bucket, in encounter order
(`fused[...].extend(t.result or [])`). -/
def bucketRows (l : List ExecutionTask) : List Json :=
  l.foldl (fun acc t => acc ++ t.result) []

def ordersOf (tasks : List ExecutionTask) : List Json :=
  bucketRows (nosqlTasksOf tasks)

def referralsOf (tasks : List ExecutionTask) : List Json :=
  bucketRows (graphTasksOf tasks)

def similarsOf (tasks : List ExecutionTask) : List Json :=
  bucketRows (vectorTasksOf tasks)

/-- Whether a primary customer is selected: first SQL task has rows. -/
def primarySelectedB (tasks : List ExecutionTask) : Bool :=
  match sqlTasksOf tasks with
  | t :: _ => !t.result.isEmpty
  | [] => false

/-- The intent phrases of the list-customers shortcut. -/
def listPhrases : List String :=
  ["list of all customers", "all customers", "list all customers",
   "give me a list of all customers", "show all customers",
   "list customers", "list clients"]

def isListCustomersQ (nl_query : Option String) : Bool :=
  let q := strLower (nl_query.getD "")
  listPhrases.any (fun p => strHasSub q p)

/-- A `{source, meta}` provenance entry. -/
def provEntry (t : ExecutionTask) : Json :=
  .obj [("source", match t.source with | some s => .str s | none => .null),
        ("meta", extraJson t)]

def provList (l : List ExecutionTask) : Json :=
  .arr (l.map provEntry)

/-- Python `', '.join(...)` over the bucket's sources. -/
def joinSourcesStr (l : List ExecutionTask) : String :=
  String.intercalate ", " (l.map srcFmt)

structure FusedResponse where
  customer : Json
  customers : List Json
  recent_orders : List Json
  referrals : List Json
  similar_customers : List Json
  explain : List String
  provenance : JsonObj

/-- Expression `first_order.get("customer_id") or first_order.get("cust_id")`. -/
def cidOf (o : JsonObj) : Json :=
  pyOrJ ((alGet o "customer_id").getD .null) ((alGet o "cust_id").getD .null)

/-- The body of `fuse` after task classification.  `fuse` touches the
task list only through the intent flag and the four classified buckets,
so the assembly is factored over them; the record is assembled in the
statement order of the Python function: list-customers shortcut, primary
customer from the first SQL task, orders, referrals, similar customers,
and the order-based inference of a missing primary customer. -/
def fuseCore (isList : Bool) (sql nosql graph vector : List ExecutionTask) :
    FusedResponse :=
  match isList, sql with
  | true, t0 :: _ =>
    { customer := .obj []
      customers := t0.result
      recent_orders := []
      referrals := []
      similar_customers := []
      explain := ["Customers from " ++ pyOrStrS t0.source "sql"]
      provenance := [("customers", provEntry t0)] }
  | _, _ =>
    let (customer, explain0, prov0, primary) :=
      match sql with
      | t0 :: _ =>
        match t0.result with
        | r0 :: _ =>
          (r0, ["Customer from " ++ srcFmt t0],
           ([("customer", provEntry t0)] : JsonObj), true)
        | [] => (Json.obj [], ([] : List String), ([] : JsonObj), false)
      | [] => (Json.obj [], ([] : List String), ([] : JsonObj), false)
    let orders := bucketRows nosql
    let explain1 := if nosql.isEmpty then explain0
      else explain0 ++ ["Orders from " ++ joinSourcesStr nosql]
    let prov1 := if nosql.isEmpty then prov0
      else alSet prov0 "recent_orders" (provList nosql)
    let refs := bucketRows graph
    let explain2 := if graph.isEmpty then explain1
      else explain1 ++ ["Referrals from " ++ joinSourcesStr graph]
    let prov2 := if graph.isEmpty then prov1
      else alSet prov1 "referrals" (provList graph)
    let sims := bucketRows vector
    let explain3 := if vector.isEmpty then explain2
      else explain2 ++ ["Similar customers from " ++ joinSourcesStr vector]
    let prov3 := if vector.isEmpty then prov2
      else alSet prov2 "similar_customers" (provList vector)
    if primary then
      { customer := customer, customers := [], recent_orders := orders
        referrals := refs, similar_customers := sims
        explain := explain3, provenance := prov3 }
    else
      match orders with
      | first :: _ =>
        match first with
        | .obj o =>
          let cid := cidOf o
          if truthy cid then
            { customer := .obj [("id", cid)], customers := []
              recent_orders := orders, referrals := refs
              similar_customers := sims
              explain := explain3 ++ ["Inferred primary customer from recent orders"]
              provenance := alSet prov3 "customer"
                (.obj [("inferred_from", .str "orders"), ("sample_order", first)]) }
          else
            { customer := customer, customers := [], recent_orders := orders
              referrals := refs, similar_customers := sims
              explain := explain3, provenance := prov3 }
        | _ =>
          -- a non-dict first order makes Python raise on `.get`; no claim
          -- exercises it
          { customer := customer, customers := [], recent_orders := orders
            referrals := refs, similar_customers := sims
            explain := explain3, provenance := prov3 }
      | [] =>
        { customer := customer, customers := [], recent_orders := orders
          referrals := refs, similar_customers := sims
          explain := explain3, provenance := prov3 }

/-- Function `fuse(tasks, nl_query)` (fusion.py line 76). -/
def fuse (tasks : List ExecutionTask) (nl_query : Option String) :
    FusedResponse :=
  fuseCore (isListCustomersQ nl_query) (sqlTasksOf tasks)
    (nosqlTasksOf tasks) (graphTasksOf tasks) (vectorTasksOf tasks)

end MDBQS

namespace MDBQS

/-! ## Planner (`app/services/planner.py`, `app/core/llm/gemini_client.py`) -/

/-- Function `_capability_from_tool` of planner.py. -/
def capabilityFromTool (db_type tool : String) : String :=
  let t := strLower tool
  let d := strLower db_type
  if t = "execute_sql" ∨ d = "sql" then "query.sql"
  else if t = "find" ∨ d = "nosql" then "query.document"
  else if t = "traverse" ∨ d = "graph" then "query.graph"
  else if t = "search" ∨ d = "vector" then "query.vector"
  else "query.sql"

/-- One iteration of the plan-node construction loop (planner.py lines
107-132).  The whole body sits in a `try`, so any exception — a missing
`id` or `mcp_id` key, or a field whose value pydantic rejects — drops
the step (`none`); every other step is kept verbatim.  No check against
the registry, the tool table, or the shape of `depends_on` is
performed. -/
def buildPlanNode (step : Json) : Option PlanNode :=
  match step with
  | .obj o => do
    let id ← alGetStr o "id"
    let preferred ←
      match alGet o "mcp_id" with
      | none => none
      | some .null => some none
      | some (.str s) => some (some s)
      | some _ => none
    let db_type ←
      match alGet o "db_type" with
      | none => some ""
      | some .null => some ""
      | some (.str s) => some s
      | some _ => none
    let tool ←
      match alGet o "tool" with
      | none => some ""
      | some .null => some ""
      | some (.str s) => some s
      | some _ => none
    let desc ←
      match pyOrJ ((alGet o "description").getD .null)
          (pyOrJ ((alGet o "intent").getD .null) (.str "step")) with
      | .str s => some s
      | _ => none
    let dep ←
      match alGet o "depends_on" with
      | none => some none
      | some .null => some none
      | some (.str s) => some (some s)
      | some _ => none
    some
      { id := id
        type := desc
        subquery_nl := Json.dumps step
        capability := capabilityFromTool db_type tool
        target_candidates := []
        preferred := preferred
        depends_on := dep
        status := "PLANNED" }
  | _ => none

/-- The plan-node construction loop over the raw LLM steps. -/
def buildPlanNodes (steps : List Json) : List PlanNode :=
  steps.filterMap buildPlanNode

/-- Parameter names accepted by `GeminiClient.plan_query`
(gemini_client.py line 97: `nl_query`, `schema_hints`). -/
def planQueryParams : List String := ["nl_query", "schema_hints"]

/-- Keyword arguments used at the planner's call site (planner.py line
101: `entity_candidates=candidates, sources=sources`). -/
def planCallKwargs : List String := ["entity_candidates", "sources"]

/-- Python keyword-argument binding: an argument name outside the
callee's parameter list raises `TypeError`. -/
def bindCall (params kwargs : List String) : Except String Unit :=
  match kwargs.find? (fun k => !params.contains k) with
  | some k =>
    .error ("TypeError: plan_query() got an unexpected keyword argument " ++ k)
  | none => .ok ()

/-- Function `planner.plan`: the call `gemini.plan_query(nl_query,
entity_candidates=candidates, sources=sources)` is not wrapped in any
`try`, so a binding failure propagates to the caller.  `llmSteps` stands
for the raw step list the LLM response would contribute; the `.ok` arm
is unreachable because the binding always fails with the source's
argument names, and is included only to close the definition. -/
def plan (llmSteps : List Json) (_nl_query : String) :
    Except String (List PlanNode) :=
  match bindCall planQueryParams planCallKwargs with
  | .error e => .error e
  | .ok _ => .ok (buildPlanNodes llmSteps)

/-- The MCP ids of the default registry
(`mcp_manager.DEFAULT_MCP_MANIFESTS`, auto-registered on import). -/
def defaultRegistryIds : List String :=
  ["sql_customers", "orders_mongo", "graph_referrals", "vector_customers"]

/-- Modelled from the spec: the allowed `(db_type, tool)` table of §4.2,
referenced by the validation rule of claim C4.  No corresponding table
exists anywhere in the implementation. -/
def specAllowedTool (db_type tool : String) : Bool :=
  (db_type = "sql" && (tool = "execute_sql" || tool = "get_schema")) ||
  (db_type = "nosql" && (tool = "find" || tool = "get_schema")) ||
  (db_type = "graph" && (tool = "traverse" || tool = "get_schema")) ||
  (db_type = "vector" && (tool = "search" || tool = "get_schema"))

end MDBQS

namespace MDBQS

/-! ## Basic lemmas about the dict operations -/

theorem alGet_cons {α : Type} (k₀ : String) (v₀ : α)
    (tl : List (String × α)) (k' : String) :
    alGet ((k₀, v₀) :: tl) k' = if k₀ = k' then some v₀ else alGet tl k' := by
  by_cases h : k₀ = k'
  · simp [alGet, h]
  · simp [alGet, h]

theorem alGet_alSet {α : Type} (m : List (String × α)) (k : String) (v : α)
    (k' : String) :
    alGet (alSet m k v) k' = if k' = k then some v else alGet m k' := by
  induction m with
  | nil =>
    rcases eq_or_ne k' k with rfl | hne
    · simp [alGet, alSet]
    · simp [alGet, alSet, Ne.symm hne, hne]
  | cons hd tl ih =>
    rcases hd with ⟨k₀, v₀⟩
    by_cases h0 : k₀ = k
    · subst h0
      simp only [alSet, beq_self_eq_true _, if_true]
      rcases eq_or_ne k' k₀ with rfl | hne
      · simp [alGet_cons]
      · simp [alGet_cons, Ne.symm hne, hne]
    · have hb : (k₀ == k) = false := by simp [h0]
      simp only [alSet, hb, Bool.false_eq_true, if_false]
      rcases eq_or_ne k' k₀ with rfl | hne
      · simp [alGet_cons, h0, Ne.symm h0, ih]
      · simp [alGet_cons, Ne.symm hne, ih]

theorem alGet_alErase {α : Type} (m : List (String × α)) (k k' : String) :
    alGet (alErase m k) k' = if k' = k then none else alGet m k' := by
  induction m with
  | nil => simp [alGet, alErase]
  | cons hd tl ih =>
    rcases hd with ⟨k₀, v₀⟩
    by_cases h0 : k₀ = k
    · subst h0
      simp only [alErase, beq_self_eq_true _, if_true]
      rcases eq_or_ne k' k₀ with rfl | hne
      · simpa using ih
      · simp [alGet_cons, Ne.symm hne, ih]
    · have hb : (k₀ == k) = false := by simp [h0]
      simp only [alErase, hb, Bool.false_eq_true, if_false]
      rcases eq_or_ne k' k₀ with rfl | hne
      · simp [alGet_cons, Ne.symm h0, h0]
      · simp [alGet_cons, Ne.symm hne, ih]

/-! ## Claim C1

planner.py line 101 invokes the LLM client as
`gemini.plan_query(nl_query, entity_candidates=candidates, sources=sources)`,
but `GeminiClient.plan_query` (gemini_client.py line 97) accepts only
`nl_query` and `schema_hints`.  Python raises
`TypeError: ... unexpected keyword argument ...` at the call site,
before the client's own try/except or its heuristic fallback can run,
and nothing in `plan` catches it. -/

/-- C1: for every natural-language query (and whatever raw steps the LLM
would have produced), `plan` raises a `TypeError` to its caller instead
of falling back to a heuristic plan: the claim's guarantee that plan
errors never surface is violated on every input. -/
theorem claim_C1_plan_always_raises (llmSteps : List Json) (nl_query : String) :
    plan llmSteps nl_query =
      Except.error
        "TypeError: plan_query() got an unexpected keyword argument entity_candidates" := by
  rfl

/-! ## Claim C4 -/

/-- A raw LLM step whose `mcp_id` is registered nowhere and whose
`(db_type, tool)` pair is outside the spec's allowed table. -/
def c4step : Json :=
  .obj [("id", .str "s1"), ("mcp_id", .str "ghost"),
        ("db_type", .str "sql"), ("tool", .str "find")]

/-- C4 counterexample: the plan-construction loop keeps a step whose
`mcp_id` ("ghost") references no registered manifest and whose
`(db_type, tool)` pair ("sql", "find") is disallowed by the spec's
table; the claim requires both conditions to drop the step. -/
theorem claim_C4_counterexample :
    (buildPlanNodes [c4step]).map (fun n => n.preferred) = [some "ghost"] ∧
    defaultRegistryIds.contains "ghost" = false ∧
    specAllowedTool "sql" "find" = false := by
  exact ⟨rfl, by decide, by decide⟩

/-- C4 amended: no validation against the registry or the allowed
`(db_type, tool)` table is performed.  A step carrying string `id` and
`mcp_id` fields is always kept — whatever its `mcp_id`, `db_type` and
`tool` — and a step missing its `id` (or `mcp_id`) key is dropped by the
`except` around the constructor, which is the only dropping that
happens. -/
theorem claim_C4_amended (i m dbt tl : String) :
    buildPlanNode
        (.obj [("id", .str i), ("mcp_id", .str m),
               ("db_type", .str dbt), ("tool", .str tl)]) =
      some
        { id := i
          type := "step"
          subquery_nl := Json.dumps
            (.obj [("id", .str i), ("mcp_id", .str m),
                   ("db_type", .str dbt), ("tool", .str tl)])
          capability := capabilityFromTool dbt tl
          target_candidates := []
          preferred := some m
          depends_on := none
          status := "PLANNED" } ∧
    buildPlanNode (.obj [("mcp_id", .str m)]) = none := by
  exact ⟨rfl, rfl⟩

end MDBQS

namespace MDBQS

/-! ## Claim C9 -/

/-- A single query task whose source id "sqlorders" contains both "sql"
and "orders" as substrings. -/
def c9task : ExecutionTask :=
  { task_id := "t1"
    plan_node_id := "p1"
    source := some "sqlorders"
    native_query := "q"
    result := [.obj [("id", .str "c1")]]
    meta := none }

/-- C9: fusion's bucket classification is not mutually exclusive — for a
single non-list query task whose source contains both "sql" and
"orders", `fuse` selects the primary customer from its first row *and*
appends all of its rows to `recent_orders`. -/
theorem claim_C9_overlapping_buckets :
    (fuse [c9task] none).customer = .obj [("id", .str "c1")] ∧
    (fuse [c9task] none).recent_orders = [.obj [("id", .str "c1")]] := by
  exact ⟨rfl, rfl⟩

/-! ## Claim C2 -/

/-- A task whose `meta.output_alias` is "customer" but whose
`source_type` classifies it as a document source. -/
def c2task : ExecutionTask :=
  { task_id := "t1"
    plan_node_id := "p1"
    source := some "m"
    native_query := "q"
    result := [.obj [("name", .str "A")]]
    meta := some
      { source_id := some "m"
        source_type := "query.document"
        last_updated := none
        output_alias := some (.str "customer")
        extra := some [] } }

/-- C2 counterexample: a task with `meta.output_alias = "customer"` and a
non-empty result exists, yet `fuse` leaves the primary customer empty and
routes the task's rows into `recent_orders` by its `source_type` — the
claimed alias routing (and its priority over source-type classification)
does not exist in `fuse`. -/
theorem claim_C2_counterexample :
    (c2task.meta.map (fun m => m.output_alias)) = some (some (.str "customer")) ∧
    c2task.result = [.obj [("name", .str "A")]] ∧
    (fuse [c2task] none).customer = .obj [] ∧
    (fuse [c2task] none).recent_orders = [.obj [("name", .str "A")]] := by
  exact ⟨rfl, rfl, rfl, rfl⟩

/-! ## Claim C8 -/

/-- An orders task whose first row carries a *present but falsy*
`customer_id` (the empty string) next to a truthy `cust_id`. -/
def c8task : ExecutionTask :=
  { task_id := "t1"
    plan_node_id := "p1"
    source := some "orders1"
    native_query := "q"
    result := [.obj [("customer_id", .str ""), ("cust_id", .str "x")]]
    meta := none }

/-- C8 counterexample: the first order *has* a `customer_id` key (value
`""`), so the claim demands `customer = {id: ""}`; the code tests Python
truthiness, falls through to `cust_id` and yields `customer = {id: "x"}`. -/
theorem claim_C8_counterexample :
    (fuse [c8task] none).recent_orders =
      [.obj [("customer_id", .str ""), ("cust_id", .str "x")]] ∧
    (fuse [c8task] none).customer = .obj [("id", .str "x")] ∧
    (Json.obj [("id", .str "x")]) ≠ (.obj [("id", .str "")]) := by
  refine ⟨rfl, rfl, ?_⟩
  intro h
  simp only [Json.obj.injEq, List.cons.injEq, Prod.mk.injEq, Json.str.injEq] at h
  exact absurd h.1.2 (by decide)

end MDBQS

namespace MDBQS

/-- Rewrite a task's `meta.output_alias` through an arbitrary function of
the task (identity on tasks without meta, like the Python attribute). -/
def setAliasT (g : ExecutionTask → Option Json) (t : ExecutionTask) :
    ExecutionTask :=
  { t with meta := t.meta.map (fun m => { m with output_alias := g t }) }

theorem setAliasT_result (g : ExecutionTask → Option Json)
    (t : ExecutionTask) : (setAliasT g t).result = t.result := rfl

theorem setAliasT_source (g : ExecutionTask → Option Json)
    (t : ExecutionTask) : (setAliasT g t).source = t.source := rfl

theorem sqlPredB_setAlias (g : ExecutionTask → Option Json)
    (t : ExecutionTask) : sqlPredB (setAliasT g t) = sqlPredB t := by
  cases h : t.meta <;> simp [sqlPredB, setAliasT, h, metaExtraD]

theorem extraSqlFallbackB_setAlias (g : ExecutionTask → Option Json)
    (t : ExecutionTask) :
    extraSqlFallbackB (setAliasT g t) = extraSqlFallbackB t := by
  cases h : t.meta <;> simp [extraSqlFallbackB, setAliasT, h]

theorem nosqlPredB_setAlias (g : ExecutionTask → Option Json)
    (t : ExecutionTask) : nosqlPredB (setAliasT g t) = nosqlPredB t := by
  cases h : t.meta <;> simp [nosqlPredB, setAliasT, h, metaExtraD]

theorem graphPredB_setAlias (g : ExecutionTask → Option Json)
    (t : ExecutionTask) : graphPredB (setAliasT g t) = graphPredB t := by
  cases h : t.meta <;> simp [graphPredB, setAliasT, h, metaExtraD]

theorem vectorPredB_setAlias (g : ExecutionTask → Option Json)
    (t : ExecutionTask) : vectorPredB (setAliasT g t) = vectorPredB t := by
  cases h : t.meta <;> simp [vectorPredB, setAliasT, h, metaExtraD]

theorem provEntry_setAlias (g : ExecutionTask → Option Json)
    (t : ExecutionTask) : provEntry (setAliasT g t) = provEntry t := by
  cases h : t.meta <;> simp [provEntry, extraJson, setAliasT, h]

theorem filter_map_setAlias (p : ExecutionTask → Bool)
    (g : ExecutionTask → Option Json)
    (hp : ∀ t, p (setAliasT g t) = p t) (l : List ExecutionTask) :
    (l.map (setAliasT g)).filter p = (l.filter p).map (setAliasT g) := by
  induction l with
  | nil => rfl
  | cons t ts ih =>
    by_cases hpt : p t
    · simp [List.filter_cons, hp, hpt, ih]
    · simp [List.filter_cons, hp, hpt, ih]

theorem isEmpty_map_tasks (f : ExecutionTask → ExecutionTask)
    (l : List ExecutionTask) : (l.map f).isEmpty = l.isEmpty := by
  cases l <;> rfl

theorem bucketRows_map_setAlias (g : ExecutionTask → Option Json)
    (l : List ExecutionTask) :
    bucketRows (l.map (setAliasT g)) = bucketRows l := by
  unfold bucketRows
  rw [List.foldl_map]
  rfl

theorem joinSourcesStr_map_setAlias (g : ExecutionTask → Option Json)
    (l : List ExecutionTask) :
    joinSourcesStr (l.map (setAliasT g)) = joinSourcesStr l := by
  unfold joinSourcesStr
  rw [List.map_map]
  congr 1

theorem provList_map_setAlias (g : ExecutionTask → Option Json)
    (l : List ExecutionTask) :
    provList (l.map (setAliasT g)) = provList l := by
  unfold provList
  rw [List.map_map]
  congr 1
  exact List.map_congr_left (fun t _ => provEntry_setAlias g t)

theorem sqlTasksOf_map_setAlias (g : ExecutionTask → Option Json)
    (tasks : List ExecutionTask) :
    sqlTasksOf (tasks.map (setAliasT g)) =
      (sqlTasksOf tasks).map (setAliasT g) := by
  unfold sqlTasksOf
  simp only [filter_map_setAlias _ _ (sqlPredB_setAlias g),
    filter_map_setAlias _ _ (extraSqlFallbackB_setAlias g),
    isEmpty_map_tasks]
  by_cases h : (tasks.filter sqlPredB).isEmpty <;> simp [h]

theorem nosqlTasksOf_map_setAlias (g : ExecutionTask → Option Json)
    (tasks : List ExecutionTask) :
    nosqlTasksOf (tasks.map (setAliasT g)) =
      (nosqlTasksOf tasks).map (setAliasT g) :=
  filter_map_setAlias _ _ (nosqlPredB_setAlias g) tasks

theorem graphTasksOf_map_setAlias (g : ExecutionTask → Option Json)
    (tasks : List ExecutionTask) :
    graphTasksOf (tasks.map (setAliasT g)) =
      (graphTasksOf tasks).map (setAliasT g) :=
  filter_map_setAlias _ _ (graphPredB_setAlias g) tasks

theorem vectorTasksOf_map_setAlias (g : ExecutionTask → Option Json)
    (tasks : List ExecutionTask) :
    vectorTasksOf (tasks.map (setAliasT g)) =
      (vectorTasksOf tasks).map (setAliasT g) :=
  filter_map_setAlias _ _ (vectorPredB_setAlias g) tasks

theorem fuseCore_setAlias (g : ExecutionTask → Option Json) (b : Bool)
    (sql nosql graph vector : List ExecutionTask) :
    fuseCore b (sql.map (setAliasT g)) (nosql.map (setAliasT g))
        (graph.map (setAliasT g)) (vector.map (setAliasT g)) =
      fuseCore b sql nosql graph vector := by
  have hb1 := bucketRows_map_setAlias g nosql
  have hb2 := bucketRows_map_setAlias g graph
  have hb3 := bucketRows_map_setAlias g vector
  have hj1 := joinSourcesStr_map_setAlias g nosql
  have hj2 := joinSourcesStr_map_setAlias g graph
  have hj3 := joinSourcesStr_map_setAlias g vector
  have hp1 := provList_map_setAlias g nosql
  have hp2 := provList_map_setAlias g graph
  have hp3 := provList_map_setAlias g vector
  have he1 := isEmpty_map_tasks (setAliasT g) nosql
  have he2 := isEmpty_map_tasks (setAliasT g) graph
  have he3 := isEmpty_map_tasks (setAliasT g) vector
  cases b <;> cases sql with
  | nil =>
    simp only [fuseCore, List.map_nil, hb1, hb2, hb3, hj1, hj2, hj3,
      hp1, hp2, hp3, he1, he2, he3]
  | cons t0 ts =>
    cases ht : t0.result <;>
      simp only [fuseCore, List.map_cons, setAliasT_result, ht,
        setAliasT_source, provEntry_setAlias, hb1, hb2, hb3, hj1, hj2,
        hj3, hp1, hp2, hp3, he1, he2, he3, pyOrStrS, srcFmt]

/-- C2 amended: `fuse` never reads `meta.output_alias` — its output is
invariant under arbitrary rewrites of every task's `output_alias`, so no
alias-based routing (let alone priority routing) exists; classification
is by `source_type` prefix, `meta.extra.source_type`, and source-id
substrings only, and the primary customer comes from the first
SQL-classified task (or the order inference). -/
theorem claim_C2_amended (g : ExecutionTask → Option Json)
    (tasks : List ExecutionTask) (nl_query : Option String) :
    fuse (tasks.map (setAliasT g)) nl_query = fuse tasks nl_query := by
  unfold fuse
  rw [sqlTasksOf_map_setAlias, nosqlTasksOf_map_setAlias,
    graphTasksOf_map_setAlias, vectorTasksOf_map_setAlias]
  exact fuseCore_setAlias g _ _ _ _ _

end MDBQS

namespace MDBQS

/-- Outside the list-customers shortcut, the `recent_orders` bucket of
the fused response is exactly the concatenation of the NoSQL bucket's
rows. -/
theorem fuseCore_orders (b : Bool) (sql nosql graph vector : List ExecutionTask)
    (harm : b = false ∨ sql = []) :
    (fuseCore b sql nosql graph vector).recent_orders = bucketRows nosql := by
  cases b
  · cases sql with
    | nil =>
      simp only [fuseCore]
      repeat' split
      all_goals rfl
    | cons t0 ts =>
      rcases ht : t0.result with _ | ⟨r0, rs⟩ <;>
        · simp only [fuseCore, ht]
          repeat' split
          all_goals rfl
  · cases sql with
    | nil =>
      simp only [fuseCore]
      repeat' split
      all_goals rfl
    | cons t0 ts =>
      rcases harm with h | h
      · exact Bool.noConfusion h
      · exact List.noConfusion h

end MDBQS

namespace MDBQS

/-- C8 amended: when no primary customer was selected and the
`recent_orders` bucket is non-empty, the customer is inferred from the
first order's `customer_id` if that value is *truthy*, else from a
truthy `cust_id` (Python `or` semantics, not key presence); when the
customer is set, the explain note is appended last and
`provenance.customer` records the sample order; if neither key holds a
truthy value the customer stays `{}`. -/
theorem claim_C8_amended (tasks : List ExecutionTask)
    (nl_query : Option String) (first : Json) (rest : List Json)
    (hp : primarySelectedB tasks = false)
    (ho : (fuse tasks nl_query).recent_orders = first :: rest) :
    ∀ o, first = Json.obj o →
      (truthy (cidOf o) = true →
        (fuse tasks nl_query).customer = .obj [("id", cidOf o)] ∧
        (fuse tasks nl_query).explain.getLast? =
          some "Inferred primary customer from recent orders" ∧
        alGet (fuse tasks nl_query).provenance "customer" =
          some (.obj [("inferred_from", .str "orders"),
                      ("sample_order", first)])) ∧
      (truthy (cidOf o) = false →
        (fuse tasks nl_query).customer = .obj []) := by
  intro o hfo
  subst hfo
  have harm : isListCustomersQ nl_query = false ∨ sqlTasksOf tasks = [] := by
    rcases hb : isListCustomersQ nl_query with _ | _
    · exact Or.inl rfl
    · rcases hsql : sqlTasksOf tasks with _ | ⟨t0, ts⟩
      · exact Or.inr rfl
      · exfalso
        have hempty : (fuse tasks nl_query).recent_orders = [] := by
          simp only [fuse, fuseCore, hb, hsql]
        rw [hempty] at ho
        exact List.noConfusion ho
  have ho3 : bucketRows (nosqlTasksOf tasks) = Json.obj o :: rest := by
    have h2 := fuseCore_orders (isListCustomersQ nl_query) (sqlTasksOf tasks)
      (nosqlTasksOf tasks) (graphTasksOf tasks) (vectorTasksOf tasks) harm
    unfold fuse at ho
    rw [h2] at ho
    exact ho
  rcases hb : isListCustomersQ nl_query with _ | _ <;>
    rcases hsql : sqlTasksOf tasks with _ | ⟨t0, ts⟩
  · simp only [fuse, fuseCore, hb, hsql, ho3, Bool.false_eq_true, if_false]
    refine ⟨fun hc => ?_, fun hc => ?_⟩
    · simp only [hc, if_true]
      refine ⟨trivial, ?_, ?_⟩
      · simp
      · rw [alGet_alSet]
        simp
    · simp only [hc, Bool.false_eq_true, if_false]
  · rcases ht : t0.result with _ | ⟨r0, rs⟩
    · simp only [fuse, fuseCore, hb, hsql, ht, ho3, Bool.false_eq_true,
        if_false]
      refine ⟨fun hc => ?_, fun hc => ?_⟩
      · simp only [hc, if_true]
        refine ⟨trivial, ?_, ?_⟩
        · simp
        · rw [alGet_alSet]
          simp
      · simp only [hc, Bool.false_eq_true, if_false]
    · simp [primarySelectedB, hsql, ht] at hp
  · simp only [fuse, fuseCore, hb, hsql, ho3, Bool.false_eq_true, if_false]
    refine ⟨fun hc => ?_, fun hc => ?_⟩
    · simp only [hc, if_true]
      refine ⟨trivial, ?_, ?_⟩
      · simp
      · rw [alGet_alSet]
        simp
    · simp only [hc, Bool.false_eq_true, if_false]
  · rw [hb] at harm
    rcases harm with h | h
    · exact Bool.noConfusion h
    · rw [hsql] at h
      exact List.noConfusion h

end MDBQS

namespace MDBQS

/-! ## String facts about the `_from` suffix convention -/

theorem take_len_append (l₁ l₂ : List Char) :
    (l₁ ++ l₂).take l₁.length = l₁ := by
  induction l₁ with
  | nil => rfl
  | cons c t ih => simp [ih]

theorem strData_inj {a b : String} (h : a.data = b.data) : a = b := by
  cases a; cases b; exact congrArg String.mk h

theorem endsFrom_append (k : String) (h : endsFrom k = true) :
    (stripFrom k).data ++ "_from".data = k.data := by
  obtain ⟨pre, hpre⟩ := List.isSuffixOf_iff_suffix.mp h
  have hlen : k.data.length - 5 = pre.length := by
    rw [← hpre, List.length_append]
    rfl
  show k.data.take (k.data.length - 5) ++ "_from".data = k.data
  rw [hlen, ← hpre, take_len_append]

theorem endsFrom_strip_inj {a b : String} (ha : endsFrom a = true)
    (hb : endsFrom b = true) (h : stripFrom a = stripFrom b) : a = b := by
  apply strData_inj
  rw [← endsFrom_append a ha, ← endsFrom_append b hb, h]

theorem strip_ne {k : String} (hk : endsFrom k = true)
    (hs : endsFrom (stripFrom k) = false) : stripFrom k ≠ k := by
  intro he
  rw [he, hk] at hs
  exact Bool.noConfusion hs

/-! ## Behaviour of the reference-resolution loop -/

theorem resolveStep_not_from (results : List (String × ExecutionTask))
    (acc : JsonObj) (p : String × Json) (h : endsFrom p.1 = false) :
    resolveStep results acc p = acc := by
  simp [resolveStep, h]

/-- A step for a different key, whose stripped name is also different,
leaves the binding of `k` unchanged. -/
theorem alGet_resolveStep_ne (results : List (String × ExecutionTask))
    (acc : JsonObj) (p : String × Json) (k : String) (h1 : p.1 ≠ k)
    (h2 : endsFrom p.1 = true → stripFrom p.1 ≠ k) :
    alGet (resolveStep results acc p) k = alGet acc k := by
  by_cases hf : endsFrom p.1
  · rcases p with ⟨pk, pv⟩
    cases pv <;> simp only [resolveStep, hf, if_true]
    · rw [alGet_alErase, if_neg (fun he => h1 he.symm)]
    · rw [alGet_alErase, if_neg (fun he => h1 he.symm)]
    · rw [alGet_alErase, if_neg (fun he => h1 he.symm)]
    · rename_i r
      cases hr : resolveRef results r <;> simp only [hr]
      · rw [alGet_alErase, if_neg (fun he => h1 he.symm)]
      · rw [alGet_alErase, if_neg (fun he => h1 he.symm), alGet_alSet,
          if_neg (fun he => h2 hf he.symm)]
    · rw [alGet_alErase, if_neg (fun he => h1 he.symm)]
    · rw [alGet_alErase, if_neg (fun he => h1 he.symm)]
  · rw [resolveStep_not_from results acc p (by simpa using hf)]

/-- Once `k` is unbound, later steps never rebind it provided no stripped
key equals `k`. -/
theorem resolveFold_none (results : List (String × ExecutionTask)) :
    ∀ (todo : JsonObj) (acc : JsonObj) (k : String),
      alGet acc k = none →
      (∀ p ∈ todo, endsFrom p.1 = true → stripFrom p.1 ≠ k) →
      alGet (todo.foldl (resolveStep results) acc) k = none := by
  intro todo
  induction todo with
  | nil => intro acc k hacc _; simpa using hacc
  | cons p rest ih =>
    intro acc k hacc hcol
    simp only [List.foldl_cons]
    apply ih
    · by_cases hpk : p.1 = k
      · subst hpk
        by_cases hf : endsFrom p.1
        · simp only [resolveStep, hf, if_true]
          rw [alGet_alErase, if_pos rfl]
        · rw [resolveStep_not_from results acc p (by simpa using hf)]
          exact hacc
      · by_cases hf : endsFrom p.1
        · rw [alGet_resolveStep_ne results acc p k hpk
            (fun _ => hcol p (List.mem_cons_self _ _) hf)]
          exact hacc
        · rw [resolveStep_not_from results acc p (by simpa using hf)]
          exact hacc
    · intro q hq hfq
      exact hcol q (List.mem_cons_of_mem p hq) hfq

/-- A `_from` key occurring in the remaining items ends up unbound. -/
theorem resolveFold_omits (results : List (String × ExecutionTask)) :
    ∀ (todo : JsonObj) (acc : JsonObj) (k : String) (v : Json),
      (k, v) ∈ todo → endsFrom k = true →
      (∀ p ∈ todo, endsFrom p.1 = true → endsFrom (stripFrom p.1) = false) →
      alGet (todo.foldl (resolveStep results) acc) k = none := by
  intro todo
  induction todo with
  | nil => intro _ _ _ hmem; exact absurd hmem (List.not_mem_nil _)
  | cons p rest ih =>
    intro acc k v hmem hk hcol
    rcases List.mem_cons.mp hmem with heq | htail
    · simp only [List.foldl_cons]
      apply resolveFold_none
      · rw [← heq]
        simp only [resolveStep, hk, if_true]
        rw [alGet_alErase, if_pos rfl]
      · intro q hq hfq
        have hq' : endsFrom (stripFrom q.1) = false :=
          hcol q (List.mem_cons_of_mem p hq) hfq
        intro he
        rw [he, hk] at hq'
        exact Bool.noConfusion hq'
    · simp only [List.foldl_cons]
      exact ih _ k v htail hk
        (fun q hq hfq => hcol q (List.mem_cons_of_mem p hq) hfq)

/-- A `some` binding of a non-`_from` key whose name is no stripped key
survives the remaining steps. -/
theorem resolveFold_pres_some (results : List (String × ExecutionTask)) :
    ∀ (todo : JsonObj) (acc : JsonObj) (key : String) (val : Json),
      alGet acc key = some val →
      (∀ q ∈ todo, endsFrom q.1 = true → q.1 ≠ key ∧ stripFrom q.1 ≠ key) →
      alGet (todo.foldl (resolveStep results) acc) key = some val := by
  intro todo
  induction todo with
  | nil => intro acc key val hacc _; simpa using hacc
  | cons p rest ih =>
    intro acc key val hacc hcol
    simp only [List.foldl_cons]
    apply ih
    · by_cases hf : endsFrom p.1
      · obtain ⟨h1, h2⟩ := hcol p (List.mem_cons_self _ _) hf
        rw [alGet_resolveStep_ne results acc p key h1 (fun _ => h2)]
        exact hacc
      · rw [resolveStep_not_from results acc p (by simpa using hf)]
        exact hacc
    · intro q hq hfq
      exact hcol q (List.mem_cons_of_mem p hq) hfq

/-- A resolvable `_from` key binds its stripped name to the resolved
value. -/
theorem resolveFold_binds (results : List (String × ExecutionTask)) :
    ∀ (todo : JsonObj) (acc : JsonObj) (k r : String) (v : Json),
      (k, Json.str r) ∈ todo → endsFrom k = true →
      resolveRef results r = some v →
      (todo.map Prod.fst).Nodup →
      (∀ p ∈ todo, endsFrom p.1 = true → endsFrom (stripFrom p.1) = false) →
      alGet (todo.foldl (resolveStep results) acc) (stripFrom k) = some v := by
  intro todo
  induction todo with
  | nil => intro _ _ _ _ hmem; exact absurd hmem (List.not_mem_nil _)
  | cons p rest ih =>
    intro acc k r v hmem hk hres hnd hcol
    have hstripk : endsFrom (stripFrom k) = false := by
      rcases List.mem_cons.mp hmem with heq | htail
      · have hp1 : p.1 = k := by rw [← heq]
        have hstep := hcol p (List.mem_cons_self _ _) (by rw [hp1]; exact hk)
        rwa [hp1] at hstep
      · exact hcol _ (List.mem_cons_of_mem p htail) hk
    rcases List.mem_cons.mp hmem with heq | htail
    · simp only [List.foldl_cons]
      apply resolveFold_pres_some
      · rw [← heq]
        simp only [resolveStep, hk, if_true, hres]
        rw [alGet_alErase, if_neg (strip_ne hk hstripk),
          alGet_alSet, if_pos rfl]
      · intro q hq hfq
        constructor
        · intro he
          rw [he, hstripk] at hfq
          exact Bool.noConfusion hfq
        · intro he
          have hqk : q.1 = k := endsFrom_strip_inj hfq hk he
          have hknotin : k ∉ rest.map Prod.fst := by
            have := List.nodup_cons.mp hnd
            rw [← heq] at this
            exact this.1
          exact hknotin (hqk ▸ List.mem_map_of_mem Prod.fst hq)
    · simp only [List.foldl_cons]
      exact ih _ k r v htail hk hres
        (List.nodup_cons.mp hnd).2
        (fun q hq hfq => hcol q (List.mem_cons_of_mem p hq) hfq)

end MDBQS

namespace MDBQS

/-! ## Claim C7 -/

/-- C7 amended: for a step input whose keys, once stripped of `_from`, do
not themselves end in `_from` (no key of the form `x_from_from`), a key
`k` ending in `_from` with a dotted reference is handled as the claim
says: on successful resolution the dispatched payload binds the stripped
key to the resolved value; the original `_from` key is always omitted
(whether or not resolution succeeds); and a dependency-free step still
dispatches.  Without that proviso the omission clause is false (see the
counterexample). -/
theorem claim_C7_amended (parse : String → Option JsonObj)
    (results : List (String × ExecutionTask)) (node : PlanNode)
    (k r : String)
    (hnd : ((inputOf parse node).map Prod.fst).Nodup)
    (hcol : ∀ p ∈ inputOf parse node, endsFrom p.1 = true →
        endsFrom (stripFrom p.1) = false)
    (hmem : (k, Json.str r) ∈ inputOf parse node)
    (hk : endsFrom k = true) :
    (∀ v, resolveRef results r = some v →
        alGet (dispatchedPayload parse results node) (stripFrom k) = some v) ∧
    alGet (dispatchedPayload parse results node) k = none ∧
    (∀ (call : Option String → String → JsonObj → Except String Json)
        (uuid : Nat → String) (idx : Nat),
        dependsOnOf parse node = none →
        processNode parse call uuid idx results node =
          some (runStep parse call uuid idx results node)) := by
  refine ⟨fun v hres => ?_, ?_, fun call uuid idx hdep => ?_⟩
  · exact resolveFold_binds results (inputOf parse node) (inputOf parse node)
      k r v hmem hk hres hnd hcol
  · exact resolveFold_omits results (inputOf parse node) (inputOf parse node)
      k (Json.str r) hmem hk hcol
  · simp only [processNode, hdep]

/-- The pathological input of the C7 counterexample: the stripped name of
`x_from_from` is itself the `_from` key `x_from`. -/
def c7p1task : ExecutionTask :=
  { task_id := "t0"
    plan_node_id := "p1"
    source := some "s"
    native_query := ""
    result := [.obj [("x", .num 1), ("y", .num 2)]]
    meta := none }

def c7results : List (String × ExecutionTask) := [("p1", c7p1task)]

def c7input : JsonObj :=
  [("x_from", .str "p1.x"), ("x_from_from", .str "p1.y")]

/-- C7 counterexample: `x_from` ends in `_from` and its dotted reference
`p1.x` resolves, so the claim demands that the dispatched payload omit
the key `x_from`; but processing the later key `x_from_from` re-binds
`x_from` (its stripped name), and the final payload contains
`x_from = 2`. -/
theorem claim_C7_counterexample :
    ("x_from", Json.str "p1.x") ∈ c7input ∧
    endsFrom "x_from" = true ∧
    resolveRef c7results "p1.x" = some (.num 1) ∧
    alGet (resolveInputs c7results c7input) "x_from" = some (.num 2) := by
  refine ⟨?_, rfl, rfl, rfl⟩
  simp [c7input]

/-- Concrete embedding/vector-search instance of the C7 claim. -/
def c7wtask : ExecutionTask :=
  { task_id := "t0"
    plan_node_id := "p1"
    source := some "sqlsrc"
    native_query := ""
    result := [.obj [("embedding", .arr [.num 1, .num 2, .num 3])]]
    meta := none }

def c7wresults : List (String × ExecutionTask) := [("p1", c7wtask)]

def c7wparse : String → Option JsonObj := fun s =>
  if s == "w7" then
    some [("input", Json.obj [("embedding_from", Json.str "p1.embedding"),
                              ("top_k", Json.num 3)])]
  else none

def c7wnode : PlanNode :=
  { id := "p2"
    type := "step"
    subquery_nl := "w7"
    capability := "query.vector"
    preferred := some "vec" }

/-- Witness for the amended C7: the canonical `embedding_from`
reference is resolved into the dispatched payload and the `_from` key is
omitted. -/
theorem claim_C7_witness :
    alGet (dispatchedPayload c7wparse c7wresults c7wnode) "embedding" =
      some (.arr [.num 1, .num 2, .num 3]) ∧
    alGet (dispatchedPayload c7wparse c7wresults c7wnode) "embedding_from" =
      none := by
  have h := claim_C7_amended c7wparse c7wresults c7wnode "embedding_from"
    "p1.embedding"
    (by simp [c7wparse, inputOf, stepOf, c7wnode, alGet])
    (by
      intro p hp hf
      have hp' : p ∈ [("embedding_from", Json.str "p1.embedding"),
          ("top_k", Json.num 3)] := hp
      rcases hp' with _ | ⟨_, hp2⟩
      · rfl
      · rcases hp2 with _ | ⟨_, hp3⟩
        · rfl
        · exact absurd hp3 (List.not_mem_nil _))
    (by simp [c7wparse, inputOf, stepOf, c7wnode, alGet])
    rfl
  exact ⟨h.1 (.arr [.num 1, .num 2, .num 3]) rfl, h.2.1⟩

end MDBQS

namespace MDBQS

/-- Witness for the amended C8: the single orders task with first row
`{customer_id: "", cust_id: "x"}` yields the inferred customer, note and
provenance. -/
theorem claim_C8_witness :
    (fuse [c8task] none).customer = .obj [("id", Json.str "x")] ∧
    (fuse [c8task] none).explain.getLast? =
      some "Inferred primary customer from recent orders" ∧
    alGet (fuse [c8task] none).provenance "customer" =
      some (.obj [("inferred_from", .str "orders"),
                  ("sample_order",
                   .obj [("customer_id", .str ""), ("cust_id", .str "x")])]) := by
  have h := claim_C8_amended [c8task] none
    (.obj [("customer_id", .str ""), ("cust_id", .str "x")]) [] rfl rfl
    [("customer_id", Json.str ""), ("cust_id", Json.str "x")] rfl
  exact h.1 rfl

/-! ## Execution-engine lemmas -/

/-- The dependency `d` is absent from the results or its task produced
zero rows. -/
def depMissingOrEmpty (results : List (String × ExecutionTask))
    (d : String) : Bool :=
  match alGet results d with
  | none => true
  | some t => t.result.isEmpty

/-- Field `meta.extra.error` of a task. -/
def taskError (t : ExecutionTask) : Option Json :=
  match t.meta with
  | some m =>
    match m.extra with
    | some e => alGet e "error"
    | none => none
  | none => none

theorem runStep_id (parse : String → Option JsonObj)
    (call : Option String → String → JsonObj → Except String Json)
    (uuid : Nat → String) (idx : Nat)
    (results : List (String × ExecutionTask)) (node : PlanNode) :
    (runStep parse call uuid idx results node).plan_node_id =
      stepIdOf parse node := by
  simp only [runStep]
  rcases call (mcpIdOf parse node) (effectiveTool parse node)
    (dispatchedPayload parse results node) with e | res <;> rfl

theorem processNode_some_id (parse : String → Option JsonObj)
    (call : Option String → String → JsonObj → Except String Json)
    (uuid : Nat → String) (idx : Nat)
    (results : List (String × ExecutionTask)) (node : PlanNode)
    (t : ExecutionTask)
    (h : processNode parse call uuid idx results node = some t) :
    t.plan_node_id = stepIdOf parse node := by
  unfold processNode at h
  rcases hd : dependsOnOf parse node with _ | d <;> simp only [hd] at h
  · injection h with h'
    rw [← h']
    exact runStep_id parse call uuid idx results node
  · by_cases hde : d = ""
    · rw [if_pos hde] at h
      injection h with h'
      rw [← h']
      exact runStep_id parse call uuid idx results node
    · rw [if_neg hde] at h
      rcases hg : alGet results d with _ | dt <;> simp only [hg] at h
      · rcases ho : optionalOf parse node <;>
          simp only [ho, Bool.false_eq_true, if_false, eq_self_iff_true,
            if_true] at h
        · injection h with h'
          rw [← h']
          rfl
        · exact Option.noConfusion h
      · rcases he : dt.result.isEmpty <;>
          simp only [he, Bool.false_eq_true, if_false, eq_self_iff_true,
            if_true] at h
        · injection h with h'
          rw [← h']
          exact runStep_id parse call uuid idx results node
        · rcases ho : optionalOf parse node <;>
            simp only [ho, Bool.false_eq_true, if_false, eq_self_iff_true,
              if_true] at h
          · injection h with h'
            rw [← h']
            exact runStep_id parse call uuid idx results node
          · exact Option.noConfusion h

theorem processNode_none (parse : String → Option JsonObj)
    (call : Option String → String → JsonObj → Except String Json)
    (uuid : Nat → String) (idx : Nat)
    (results : List (String × ExecutionTask)) (node : PlanNode)
    (h : processNode parse call uuid idx results node = none) :
    optionalOf parse node = true ∧
    ∃ d, dependsOnOf parse node = some d ∧
      depMissingOrEmpty results d = true := by
  unfold processNode at h
  rcases hd : dependsOnOf parse node with _ | d <;> simp only [hd] at h
  · exact Option.noConfusion h
  · by_cases hde : d = ""
    · rw [if_pos hde] at h
      exact Option.noConfusion h
    · rw [if_neg hde] at h
      rcases hg : alGet results d with _ | dt <;> simp only [hg] at h
      · rcases ho : optionalOf parse node <;>
          simp only [ho, Bool.false_eq_true, if_false, eq_self_iff_true,
            if_true] at h
        · exact Option.noConfusion h
        · exact ⟨rfl, d, rfl, by simp [depMissingOrEmpty, hg]⟩
      · rcases he : dt.result.isEmpty <;>
          simp only [he, Bool.false_eq_true, if_false, eq_self_iff_true,
            if_true] at h
        · exact Option.noConfusion h
        · rcases ho : optionalOf parse node <;>
            simp only [ho, Bool.false_eq_true, if_false, eq_self_iff_true,
              if_true] at h
          · exact Option.noConfusion h
          · exact ⟨rfl, d, rfl, by simp [depMissingOrEmpty, hg, he]⟩

theorem processNode_depfail (parse : String → Option JsonObj)
    (call : Option String → String → JsonObj → Except String Json)
    (uuid : Nat → String) (idx : Nat)
    (results : List (String × ExecutionTask)) (node : PlanNode)
    (t : ExecutionTask) (d : String)
    (h : processNode parse call uuid idx results node = some t)
    (hd : dependsOnOf parse node = some d)
    (hne : d ≠ "")
    (hg : alGet results d = none) :
    t.result = [] ∧
    taskError t = some (.str ("Dependency " ++ d ++ " not found")) := by
  unfold processNode at h
  simp only [hd] at h
  rw [if_neg hne] at h
  simp only [hg] at h
  rcases ho : optionalOf parse node <;>
    simp only [ho, Bool.false_eq_true, if_false, eq_self_iff_true,
      if_true] at h
  · injection h with h'
    rw [← h']
    exact ⟨rfl, rfl⟩
  · exact Option.noConfusion h

end MDBQS

namespace MDBQS

theorem execGo_sublist (parse : String → Option JsonObj)
    (call : Option String → String → JsonObj → Except String Json)
    (uuid : Nat → String) :
    ∀ (nodes : List PlanNode) (idx : Nat)
      (results : List (String × ExecutionTask)),
      ((execGo parse call uuid idx results nodes).map
          (fun t => t.plan_node_id)).Sublist
        (nodes.map (stepIdOf parse)) := by
  intro nodes
  induction nodes with
  | nil => intro idx results; simp [execGo]
  | cons node rest ih =>
    intro idx results
    rcases hp : processNode parse call uuid idx results node with _ | t
    · simp only [execGo, hp, List.map_cons]
      exact List.Sublist.cons _ (ih _ _)
    · simp only [execGo, hp, List.map_cons]
      rw [processNode_some_id parse call uuid idx results node t hp]
      exact List.Sublist.cons₂ _ (ih _ _)

theorem execTrace_skip_char (parse : String → Option JsonObj)
    (call : Option String → String → JsonObj → Except String Json)
    (uuid : Nat → String) :
    ∀ (nodes : List PlanNode) (idx : Nat)
      (results : List (String × ExecutionTask)) (j : Nat) (node : PlanNode)
      (res : List (String × ExecutionTask)) (out : Option ExecutionTask),
      (execTrace parse call uuid idx results nodes).get? j =
        some (node, res, out) →
      out = none →
      optionalOf parse node = true ∧
      ∃ d, dependsOnOf parse node = some d ∧
        depMissingOrEmpty res d = true := by
  intro nodes
  induction nodes with
  | nil => intro idx results j node res out h _; simp [execTrace] at h
  | cons n rest ih =>
    intro idx results j node res out h hout
    rcases hp : processNode parse call uuid idx results n with _ | t <;>
      simp only [execTrace, hp] at h
    · rcases j with _ | j'
      · simp only [List.get?] at h
        injection h with h'
        injection h' with e1 e23
        injection e23 with e2 e3
        subst e1; subst e2; subst e3
        exact processNode_none parse call uuid idx results n hp
      · exact ih _ _ j' node res out h hout
    · rcases j with _ | j'
      · simp only [List.get?] at h
        injection h with h'
        injection h' with e1 e23
        injection e23 with e2 e3
        rw [← e3] at hout
        exact Option.noConfusion hout
      · exact ih _ _ j' node res out h hout

end MDBQS

namespace MDBQS

/-! ## Claim C5 -/

/-- C5: the plan-step ids of the emitted tasks form a prefix-preserving
subsequence of the plan's step ids (the executor's effective step id is
`step.get("id", node.id)`, which coincides with `node.id` whenever the
embedded step carries the node's id — the planner always stores them
equal; the third conjunct covers that reading); and every omitted step
was an optional step whose dependency was absent or had produced zero
rows when its turn came. -/
theorem claim_C5_order_preservation (parse : String → Option JsonObj)
    (call : Option String → String → JsonObj → Except String Json)
    (uuid : Nat → String) (nodes : List PlanNode) :
    ((executePlan parse call uuid nodes).map
        (fun t => t.plan_node_id)).Sublist (nodes.map (stepIdOf parse)) ∧
    (∀ (j : Nat) (node : PlanNode)
        (res : List (String × ExecutionTask)) (out : Option ExecutionTask),
        (execTrace parse call uuid 0 [] nodes).get? j =
          some (node, res, out) →
        out = none →
        optionalOf parse node = true ∧
        ∃ d, dependsOnOf parse node = some d ∧
          depMissingOrEmpty res d = true) ∧
    ((∀ node ∈ nodes, stepIdOf parse node = node.id) →
      ((executePlan parse call uuid nodes).map
          (fun t => t.plan_node_id)).Sublist (nodes.map (fun n => n.id))) := by
  refine ⟨execGo_sublist parse call uuid nodes 0 [],
    fun j node res out h hout =>
      execTrace_skip_char parse call uuid nodes 0 [] j node res out h hout,
    fun hid => ?_⟩
  have hmap : nodes.map (stepIdOf parse) = nodes.map (fun n => n.id) :=
    List.map_congr_left hid
  rw [← hmap]
  exact execGo_sublist parse call uuid nodes 0 []

end MDBQS

namespace MDBQS

/-- The emitted entries of a run: each emitted task paired with its node
and the results map in force when it ran; the task components, in order,
are exactly `execute_plan`'s output list. -/
def execEmitted (parse : String → Option JsonObj)
    (call : Option String → String → JsonObj → Except String Json)
    (uuid : Nat → String) :
    Nat → List (String × ExecutionTask) → List PlanNode →
    List (PlanNode × List (String × ExecutionTask) × ExecutionTask)
  | _, _, [] => []
  | idx, results, node :: rest =>
    match processNode parse call uuid idx results node with
    | none => execEmitted parse call uuid (idx + 1) results rest
    | some t =>
      (node, results, t) :: execEmitted parse call uuid (idx + 1)
        (alSet results t.plan_node_id t) rest

theorem execEmitted_map (parse : String → Option JsonObj)
    (call : Option String → String → JsonObj → Except String Json)
    (uuid : Nat → String) :
    ∀ (nodes : List PlanNode) (idx : Nat)
      (results : List (String × ExecutionTask)),
      (execEmitted parse call uuid idx results nodes).map (fun p => p.2.2) =
        execGo parse call uuid idx results nodes := by
  intro nodes
  induction nodes with
  | nil => intro idx results; rfl
  | cons node rest ih =>
    intro idx results
    rcases hp : processNode parse call uuid idx results node with _ | t <;>
      simp only [execEmitted, execGo, hp, List.map_cons]
    · exact ih _ _
    · exact congrArg (List.cons t) (ih _ _)

/-- Every entry of the results map keyed `d` holds a task whose step id
is `d`<…>; used to justify that a found dependency was emitted earlier. -/
theorem execEmitted_dep (parse : String → Option JsonObj)
    (call : Option String → String → JsonObj → Except String Json)
    (uuid : Nat → String) :
    ∀ (nodes : List PlanNode) (idx : Nat)
      (results : List (String × ExecutionTask)) (j : Nat) (node : PlanNode)
      (res : List (String × ExecutionTask)) (t : ExecutionTask),
      (execEmitted parse call uuid idx results nodes).get? j =
        some (node, res, t) →
      ∀ d, dependsOnOf parse node = some d → d ≠ "" →
      (∃ i, i < j ∧ ∃ p,
          (execEmitted parse call uuid idx results nodes).get? i = some p ∧
          p.2.2.plan_node_id = d) ∨
      (alGet results d).isSome = true ∨
      (t.result = [] ∧
        taskError t = some (.str ("Dependency " ++ d ++ " not found"))) := by
  intro nodes
  induction nodes with
  | nil => intro idx results j node res t h; simp [execEmitted] at h
  | cons n rest ih =>
    intro idx results j node res t h d hd hne
    rcases hp : processNode parse call uuid idx results n with _ | t0 <;>
      simp only [execEmitted, hp] at h ⊢
    · rcases ih _ _ j node res t h d hd hne with hleft | hmid | hfail
      · exact Or.inl hleft
      · exact Or.inr (Or.inl hmid)
      · exact Or.inr (Or.inr hfail)
    · rcases j with _ | j'
      · simp only [List.get?] at h
        injection h with h'
        injection h' with e1 e23
        injection e23 with e2 e3
        subst e1; subst e2; subst e3
        rcases hg : alGet results d with _ | dt
        · exact Or.inr (Or.inr
            (processNode_depfail parse call uuid idx results n t0 d hp hd hne hg))
        · exact Or.inr (Or.inl (by simp [hg]))
      · rcases ih _ _ j' node res t h d hd hne with ⟨i, hi, p, hpi, hpid⟩ | hmid | hfail
        · exact Or.inl ⟨i + 1, Nat.succ_lt_succ hi, p, hpi, hpid⟩
        · rw [alGet_alSet] at hmid
          by_cases hdk : d = t0.plan_node_id
          · exact Or.inl ⟨0, Nat.succ_pos _, (n, results, t0), rfl, hdk.symm⟩
          · rw [if_neg hdk] at hmid
            exact Or.inr (Or.inl hmid)
        · exact Or.inr (Or.inr hfail)

/-- C6 amended: the emitted-task components of the run's trace are
exactly `execute_plan`'s output, and every emitted task whose step
depends on a *truthy* `d` (a non-empty string — an effective
`depends_on` of `None` or `""` is falsy in Python and bypasses the
dependency check entirely, the step dispatching normally) either comes
after some output task whose step id is `d`, or is itself the
dependency-failure task (empty rows,
`extra.error = "Dependency <d> not found"`).  The unqualified claim is
refuted by the counterexample below: a dependency on a skipped optional
step yields a failure task with no earlier task for `d`. -/
theorem claim_C6_amended (parse : String → Option JsonObj)
    (call : Option String → String → JsonObj → Except String Json)
    (uuid : Nat → String) (nodes : List PlanNode) :
    ((execEmitted parse call uuid 0 [] nodes).map (fun p => p.2.2) =
      executePlan parse call uuid nodes) ∧
    ∀ (j : Nat) (node : PlanNode) (res : List (String × ExecutionTask))
      (t : ExecutionTask),
      (execEmitted parse call uuid 0 [] nodes).get? j = some (node, res, t) →
      ∀ d, dependsOnOf parse node = some d → d ≠ "" →
      (∃ i, i < j ∧ ∃ t',
          (executePlan parse call uuid nodes).get? i = some t' ∧
          t'.plan_node_id = d) ∨
      (t.result = [] ∧
        taskError t = some (.str ("Dependency " ++ d ++ " not found"))) := by
  refine ⟨execEmitted_map parse call uuid nodes 0 [], ?_⟩
  intro j node res t h d hd hne
  rcases execEmitted_dep parse call uuid nodes 0 [] j node res t h d hd hne with
    ⟨i, hi, p, hpi, hpid⟩ | hmid | hfail
  · refine Or.inl ⟨i, hi, p.2.2, ?_, hpid⟩
    rw [show executePlan parse call uuid nodes =
        execGo parse call uuid 0 [] nodes from rfl,
      ← execEmitted_map parse call uuid nodes 0 [], List.get?_map, hpi]
    rfl
  · exact Bool.noConfusion hmid
  · exact Or.inr hfail

end MDBQS

namespace MDBQS

theorem execTrace_processNode (parse : String → Option JsonObj)
    (call : Option String → String → JsonObj → Except String Json)
    (uuid : Nat → String) :
    ∀ (nodes : List PlanNode) (idx : Nat)
      (results : List (String × ExecutionTask)) (j : Nat) (node : PlanNode)
      (res : List (String × ExecutionTask)) (out : Option ExecutionTask),
      (execTrace parse call uuid idx results nodes).get? j =
        some (node, res, out) →
      out = processNode parse call uuid (idx + j) res node := by
  intro nodes
  induction nodes with
  | nil => intro idx results j node res out h; simp [execTrace] at h
  | cons n rest ih =>
    intro idx results j node res out h
    rcases hp : processNode parse call uuid idx results n with _ | t <;>
      simp only [execTrace, hp] at h
    · rcases j with _ | j'
      · simp only [List.get?] at h
        injection h with h'
        injection h' with e1 e23
        injection e23 with e2 e3
        subst e1; subst e2; subst e3
        rw [Nat.add_zero]
        exact hp.symm
      · have := ih (idx + 1) results j' node res out h
        rwa [show idx + 1 + j' = idx + (j' + 1) from by omega] at this
    · rcases j with _ | j'
      · simp only [List.get?] at h
        injection h with h'
        injection h' with e1 e23
        injection e23 with e2 e3
        subst e1; subst e2; subst e3
        rw [Nat.add_zero]
        exact hp.symm
      · have := ih (idx + 1) (alSet results t.plan_node_id t) j' node res out h
        rwa [show idx + 1 + j' = idx + (j' + 1) from by omega] at this

/-! ## Claim C3 -/

/-- C3 amended: the dependency check is guarded by Python truthiness
(`if depends_on:`).  For a truthy dependency `d` (a non-empty string)
whose task exists but produced zero rows, a truthy-optional step is
skipped (no task emitted) while a non-optional step is *not* turned
into a failure task — it proceeds to resolution and dispatch exactly as
if the dependency were satisfied; and an effective `depends_on` of `""`
is falsy, so the step bypasses the dependency check and dispatches
normally whether optional or not.  The failure task of the claim is
emitted only when a truthy dependency's task is absent entirely (claim
C6's amended theorem covers that case). -/
theorem claim_C3_amended (parse : String → Option JsonObj)
    (call : Option String → String → JsonObj → Except String Json)
    (uuid : Nat → String) (nodes : List PlanNode) :
    ∀ (j : Nat) (node : PlanNode) (res : List (String × ExecutionTask))
      (out : Option ExecutionTask),
      (execTrace parse call uuid 0 [] nodes).get? j = some (node, res, out) →
      ∀ d, dependsOnOf parse node = some d →
      (d ≠ "" →
        ∀ t', alGet res d = some t' → t'.result = [] →
        (optionalOf parse node = true → out = none) ∧
        (optionalOf parse node = false →
          out = some (runStep parse call uuid j res node))) ∧
      (d = "" → out = some (runStep parse call uuid j res node)) := by
  intro j node res out h d hd
  have hout := execTrace_processNode parse call uuid nodes 0 [] j node res out h
  rw [Nat.zero_add] at hout
  unfold processNode at hout
  simp only [hd] at hout
  constructor
  · intro hne t' hg he
    rw [if_neg hne] at hout
    simp only [hg] at hout
    have hempty : t'.result.isEmpty = true := by simp [he]
    simp only [hempty, eq_self_iff_true, if_true] at hout
    constructor
    · intro ho
      simp only [ho, eq_self_iff_true, if_true] at hout
      exact hout
    · intro ho
      simp only [ho, Bool.false_eq_true, if_false] at hout
      exact hout
  · intro hde
    rw [if_pos hde] at hout
    exact hout

/-- Concrete two-step plan: step "a" dispatches and produces zero rows,
step "b" requires "a". -/
def c3parse : String → Option JsonObj := fun _ => none

def c3call : Option String → String → JsonObj → Except String Json :=
  fun m _ _ =>
    if m == some "srcA" then .ok (.obj [("rows", .arr [])])
    else .ok (.obj [("rows", .arr [.obj [("id", .str "r1")]])])

def c3uuid : Nat → String := fun n => "t" ++ toString n

def c3nodeA : PlanNode :=
  { id := "a", type := "s", subquery_nl := "", capability := "query.sql"
    preferred := some "srcA" }

def c3nodeB : PlanNode :=
  { id := "b", type := "s", subquery_nl := "", capability := "query.sql"
    preferred := some "srcB", depends_on := some "a" }

def c3nodes : List PlanNode := [c3nodeA, c3nodeB]

/-- The claim's statement for a run: a step whose existing dependency
produced zero rows and which is not optional is emitted as a failure
task with empty rows and the dependency error. -/
def depEmptyFailClaim (parse : String → Option JsonObj)
    (call : Option String → String → JsonObj → Except String Json)
    (uuid : Nat → String) (nodes : List PlanNode) : Prop :=
  ∀ (j : Nat) (node : PlanNode) (res : List (String × ExecutionTask))
    (t : ExecutionTask),
    (execTrace parse call uuid 0 [] nodes).get? j = some (node, res, some t) →
    ∀ d, dependsOnOf parse node = some d →
    ∀ t', alGet res d = some t' → t'.result = [] →
    optionalOf parse node = false →
    t.result = [] ∧
    taskError t = some (.str ("Dependency " ++ d ++ " not found"))

/-- Default task used only to extract computed run components. -/
def dfltTask : ExecutionTask :=
  { task_id := "", plan_node_id := "", native_query := "" }

/-- The trace entry of step "b" in the concrete C3 run. -/
def c3entry : PlanNode × List (String × ExecutionTask) × Option ExecutionTask :=
  ((execTrace c3parse c3call c3uuid 0 [] c3nodes).get? 1).getD
    (c3nodeA, [], none)

def c3emitted : ExecutionTask := c3entry.2.2.getD dfltTask

def c3deptask : ExecutionTask := (alGet c3entry.2.1 "a").getD dfltTask

/-- C3 counterexample: in the concrete run, step "b"'s dependency "a"
exists with zero rows and "b" is not optional, yet "b" dispatches
normally and returns one row with no error — the claimed failure task is
never emitted. -/
theorem claim_C3_counterexample :
    ¬ depEmptyFailClaim c3parse c3call c3uuid c3nodes := by
  intro h
  have h1 := h 1 c3entry.1 c3entry.2.1 c3emitted rfl "a" rfl
    c3deptask rfl rfl rfl
  have h3 : c3emitted.result = [.obj [("id", .str "r1")]] := rfl
  rw [h1.1] at h3
  exact List.noConfusion h3

end MDBQS

namespace MDBQS

/-- Witness for the amended C3: step "b" of the concrete run is emitted
as the normally dispatched task despite its empty dependency. -/
theorem claim_C3_witness :
    c3entry.2.2 =
      some (runStep c3parse c3call c3uuid 1 c3entry.2.1 c3entry.1) := by
  have h := claim_C3_amended c3parse c3call c3uuid c3nodes 1 c3entry.1
    c3entry.2.1 c3entry.2.2 rfl "a" rfl
  exact (h.1 (by decide) c3deptask rfl rfl).2 rfl

/-! ## Plan invariants (§3 of the spec: I1 unique earlier-referring
`depends_on`, I2 well-formed `_from` references to earlier steps, I3
allowed `(db_type, tool)` pairs), stated on the executor's effective
step values. -/

def planInvariantsGo (parse : String → Option JsonObj) :
    List String → List PlanNode → Bool
  | _, [] => true
  | seen, node :: rest =>
    let sid := stepIdOf parse node
    (!seen.contains sid)
    && (match dependsOnOf parse node with
        | some d => seen.contains d
        | none => true)
    && ((inputOf parse node).all (fun p =>
        if endsFrom p.1 then
          match p.2 with
          | .str r =>
            (match strSplitDot r with
             | sid' :: rest' =>
               !rest'.isEmpty && (sid' :: rest').all (fun seg => !(seg == ""))
                 && seen.contains sid'
             | [] => false)
          | _ => false
        else true))
    && specAllowedTool (dbTypeOf parse node) (effectiveTool parse node)
    && planInvariantsGo parse (sid :: seen) rest

def planInvariants (parse : String → Option JsonObj)
    (nodes : List PlanNode) : Bool :=
  planInvariantsGo parse [] nodes

/-! ## Claim C6 -/

/-- Three-step plan satisfying the invariants: "e" dispatches and gets
zero rows, "d" is optional and depends on "e" (so it is skipped), "s"
depends on "d". -/
def c6parse : String → Option JsonObj := fun s =>
  if s == "se" then
    some [("id", .str "e"), ("db_type", .str "sql"),
          ("tool", .str "execute_sql")]
  else if s == "sd" then
    some [("id", .str "d"), ("db_type", .str "sql"),
          ("tool", .str "execute_sql"), ("optional", .bool true)]
  else if s == "ss" then
    some [("id", .str "s"), ("db_type", .str "sql"),
          ("tool", .str "execute_sql")]
  else none

def c6call : Option String → String → JsonObj → Except String Json :=
  fun m _ _ =>
    if m == some "srcE" then .ok (.obj [("rows", .arr [])])
    else .ok (.obj [("rows", .arr [.obj [("k", .num 1)]])])

def c6uuid : Nat → String := fun n => "u" ++ toString n

def c6nodeE : PlanNode :=
  { id := "e", type := "s", subquery_nl := "se", capability := "query.sql"
    preferred := some "srcE" }

def c6nodeD : PlanNode :=
  { id := "d", type := "s", subquery_nl := "sd", capability := "query.sql"
    preferred := some "srcD", depends_on := some "e" }

def c6nodeS : PlanNode :=
  { id := "s", type := "s", subquery_nl := "ss", capability := "query.sql"
    preferred := some "srcS", depends_on := some "d" }

def c6nodes : List PlanNode := [c6nodeE, c6nodeD, c6nodeS]

/-- The claim's statement for a run (weakened to membership anywhere in
the output — a fortiori refuted): every emitted task whose step depends
on `d` is preceded by *some* output task with step id `d`. -/
def depRespectedClaim (parse : String → Option JsonObj)
    (call : Option String → String → JsonObj → Except String Json)
    (uuid : Nat → String) (nodes : List PlanNode) : Prop :=
  ∀ (j : Nat) (node : PlanNode) (res : List (String × ExecutionTask))
    (t : ExecutionTask),
    (execEmitted parse call uuid 0 [] nodes).get? j = some (node, res, t) →
    ∀ d, dependsOnOf parse node = some d →
    ∃ t' ∈ executePlan parse call uuid nodes, t'.plan_node_id = d

/-- The emitted entry of step "s" in the concrete C6 run. -/
def c6entry : PlanNode × List (String × ExecutionTask) × ExecutionTask :=
  ((execEmitted c6parse c6call c6uuid 0 [] c6nodes).get? 1).getD
    (c6nodeE, [], dfltTask)

/-- C6 counterexample: the concrete plan satisfies the invariants
(unique ids, earlier-referring dependencies, allowed tools), yet the
output contains a task for step "s" (a dependency-failure task for the
skipped optional step "d") while no task with step id "d" appears
anywhere in the output, let alone earlier. -/
theorem claim_C6_counterexample :
    planInvariants c6parse c6nodes = true ∧
    ¬ depRespectedClaim c6parse c6call c6uuid c6nodes := by
  refine ⟨rfl, fun h => ?_⟩
  obtain ⟨t', ht', hid⟩ := h 1 c6entry.1 c6entry.2.1 c6entry.2.2 rfl "d" rfl
  have hmem : t'.plan_node_id ∈
      (executePlan c6parse c6call c6uuid c6nodes).map
        (fun t => t.plan_node_id) :=
    List.mem_map_of_mem _ ht'
  rw [hid] at hmem
  have hmap : (executePlan c6parse c6call c6uuid c6nodes).map
      (fun t => t.plan_node_id) = ["e", "s"] := rfl
  rw [hmap] at hmem
  exact absurd hmem (by decide)

/-- Witness for the amended C6: step "s" of the concrete run is the
dependency-failure task (no earlier task carries its dependency id). -/
theorem claim_C6_witness :
    (∃ i, i < 1 ∧ ∃ t',
        (executePlan c6parse c6call c6uuid c6nodes).get? i = some t' ∧
        t'.plan_node_id = "d") ∨
    (c6entry.2.2.result = [] ∧
      taskError c6entry.2.2 =
        some (.str ("Dependency " ++ "d" ++ " not found"))) := by
  exact (claim_C6_amended c6parse c6call c6uuid c6nodes).2 1 c6entry.1
    c6entry.2.1 c6entry.2.2 rfl "d" rfl (by decide)

/-- The trace entry of the skipped optional step "d" in the C6 run. -/
def c5entry : PlanNode × List (String × ExecutionTask) × Option ExecutionTask :=
  ((execTrace c6parse c6call c6uuid 0 [] c6nodes).get? 1).getD
    (c6nodeE, [], none)

/-- Witness for C5: the one omitted step of the concrete run is optional
and its dependency's task is present but empty. -/
theorem claim_C5_witness :
    optionalOf c6parse c5entry.1 = true ∧
    ∃ d, dependsOnOf c6parse c5entry.1 = some d ∧
      depMissingOrEmpty c5entry.2.1 d = true := by
  exact (claim_C5_order_preservation c6parse c6call c6uuid c6nodes).2.1 1
    c5entry.1 c5entry.2.1 c5entry.2.2 rfl rfl

end MDBQS

namespace MDBQS

/-! ## Claim C10 -/

/-- The claim's tool inference for an empty step: capability dispatch
with `execute_sql` as the default. -/
def capToolDefault (cap : String) : String :=
  if strLower cap = "query.sql" then "execute_sql"
  else if strLower cap = "query.document" then "find"
  else if strLower cap = "query.graph" then "traverse"
  else if strLower cap = "query.vector" then "search"
  else "execute_sql"

/-- C10: a node whose embedded step JSON is empty or unparseable is not
dropped and gets no parse-error task; it is executed with an empty input
payload, `mcp_id` from `node.preferred`, `depends_on` from
`node.depends_on`, and the tool inferred from the node's capability
(defaulting to `execute_sql`) — the dispatch consulted is exactly
`call node.preferred (capToolDefault node.capability) {}`. -/
theorem claim_C10_empty_step (parse : String → Option JsonObj)
    (call : Option String → String → JsonObj → Except String Json)
    (uuid : Nat → String) (node : PlanNode) (res : Json)
    (hparse : node.subquery_nl = "" ∨ parse node.subquery_nl = none)
    (hdep : node.depends_on = none)
    (hcall : call node.preferred (capToolDefault node.capability) [] =
      Except.ok res) :
    ∃ t, executePlan parse call uuid [node] = [t] ∧
      t.plan_node_id = node.id ∧
      t.source = node.preferred ∧
      t.result = extractRows res := by
  have hstep : stepOf parse node = [] := by
    rcases hparse with h | h
    · simp [stepOf, h]
    · simp [stepOf, h]
  have hmcp : mcpIdOf parse node = node.preferred := by
    simp [mcpIdOf, alGetStr, hstep, alGet, pyOrStr]
  have hdep2 : dependsOnOf parse node = none := by
    simp [dependsOnOf, alGetStr, hstep, alGet, pyOrStr, hdep]
  have hid : stepIdOf parse node = node.id := by
    simp [stepIdOf, alGetStrD, alGetStr, hstep, alGet]
  have hinput : inputOf parse node = [] := by
    simp [inputOf, hstep, alGet]
  have htool : effectiveTool parse node = capToolDefault node.capability := by
    have e1 : (strLower "" = "sql") = False := eq_false (by decide)
    have e2 : (strLower "" = "nosql") = False := eq_false (by decide)
    have e3 : (strLower "" = "graph") = False := eq_false (by decide)
    have e4 : (strLower "" = "vector") = False := eq_false (by decide)
    simp only [effectiveTool, toolRawOf, dbTypeOf, alGetStrD, alGetStr,
      hstep, alGet, Option.getD, capToolDefault, e1, e2, e3, e4, or_false]
    rw [if_neg (fun h => h rfl)]
  have hpayload : dispatchedPayload parse [] node = [] := by
    simp [dispatchedPayload, resolveInputs, hinput]
  refine ⟨runStep parse call uuid 0 [] node, ?_, ?_, ?_, ?_⟩
  · show execGo parse call uuid 0 [] [node] =
      [runStep parse call uuid 0 [] node]
    simp only [execGo, processNode, hdep2]
  · rw [runStep_id]
    exact hid
  · simp only [runStep]
    rw [hmcp, htool, hpayload, hcall]
  · simp only [runStep]
    rw [hmcp, htool, hpayload, hcall]

def c10parse : String → Option JsonObj := fun _ => none

def c10call : Option String → String → JsonObj → Except String Json :=
  fun _ _ _ => .ok (.obj [("matches", .arr [.num 7])])

def c10uuid : Nat → String := fun n => "w" ++ toString n

def c10node : PlanNode :=
  { id := "n1", type := "s", subquery_nl := "not a json object"
    capability := "query.vector", preferred := some "vec" }

/-- Witness for C10: a node with an unparseable step is dispatched (tool
"search" inferred from its vector capability) and its rows are the
normalised response. -/
theorem claim_C10_witness :
    ∃ t, executePlan c10parse c10call c10uuid [c10node] = [t] ∧
      t.plan_node_id = "n1" ∧
      t.source = some "vec" ∧
      t.result = [.num 7] := by
  obtain ⟨t, h1, h2, h3, h4⟩ := claim_C10_empty_step c10parse c10call c10uuid
    c10node (.obj [("matches", .arr [.num 7])]) (Or.inr rfl) rfl rfl
  exact ⟨t, h1, h2, h3, h4⟩

end MDBQS
